import Mathlib

/-
Verification of the DM relay core of main.py: the inbound relay handler
(on_message), the hand-off queue drain (drain_incoming_queue_to_conversations),
the bulk history reload (reload_all_histories with fetch_for_uid and
fetch_channel_history), and the durable store (atomic_save, load_json,
load_known_users). The shallow embedding below mirrors the Python source:
conversations is the dict from user id to list of formatted lines, the
hand-off queue is the FIFO of (author, content) pairs, and the unread counter
is a natural number. Concurrency is serialized: every lock-protected block in
the source is modelled as one atomic step.
-/

namespace DMBot

/-- A Discord user as the relay sees it: a stable numeric id, the display
label produced by str(user), and the bot flag checked by on_message. -/
structure Author where
  id : Nat
  label : String
  bot : Bool

/-- An inbound message event: its author, its content, and whether the
channel it arrived on is a direct-message channel. -/
structure Message where
  author : Author
  content : String
  channel_isDM : Bool

/-- The formatted record stored in a conversation log, as built by the
source f-string: str(author) followed by a colon, a space and the content. -/
def formatRecord (a : Author) (content : String) : String :=
  a.label ++ ": " ++ content

/-- conversations.setdefault(uid, []).append(line): append one line to the
log of uid, leaving every other log unchanged. -/
def appendConv (conv : Nat → List String) (uid : Nat) (line : String) :
    Nat → List String :=
  fun k => if k = uid then conv uid ++ [line] else conv k

/-- conversations[uid] = texts: wholesale replacement of the log of uid. -/
def setConv (conv : Nat → List String) (uid : Nat) (texts : List String) :
    Nat → List String :=
  fun k => if k = uid then texts else conv k

/-- Insert uid into a sorted duplicate-free list, keeping it sorted and
duplicate-free. -/
def sortedInsert (uid : Nat) : List Nat → List Nat
  | [] => [uid]
  | x :: xs =>
      if uid < x then uid :: x :: xs
      else if uid = x then x :: xs
      else x :: sortedInsert uid xs

/-- sorted(list(set(l) | set([uid]))), the known-users update performed by
on_message and by the drain loops before saving known_users.json. -/
def addKnown (l : List Nat) (uid : Nat) : List Nat :=
  sortedInsert uid (l.foldr sortedInsert [])

/-- The mutable state shared between the Discord event loop and the CLI
thread: the hand-off queue (incoming_queue), the unread counter, the
conversations dict, and the persisted known-users list. -/
structure BotState where
  incoming_queue : List (Author × String)
  unread_count : Nat
  conversations : Nat → List String
  known_users : List Nat

/-- The state at process start: empty queue, zero unread counter, and
whatever conversations and known users were loaded from the durable store. -/
def startState (conv : Nat → List String) (known : List Nat) : BotState :=
  { incoming_queue := [], unread_count := 0, conversations := conv,
    known_users := known }

/-- The on_message event handler: if the channel is a DMChannel and the
author is not a bot, enqueue (author, content) on the hand-off queue,
increment the unread counter, append the formatted record to the author log,
and add the author to the known-users set; otherwise do nothing. -/
def on_message (s : BotState) (m : Message) : BotState :=
  if m.channel_isDM && !m.author.bot then
    { incoming_queue := s.incoming_queue ++ [(m.author, m.content)],
      unread_count := s.unread_count + 1,
      conversations :=
        appendConv s.conversations m.author.id (formatRecord m.author m.content),
      known_users := addKnown s.known_users m.author.id }
  else s

/-- One iteration of the drain loop body: decrement the unread counter with
a floor at zero, append the formatted record to the author log, and add the
author to the known-users set. -/
def drainStep (s : BotState) (e : Author × String) : BotState :=
  { s with
    unread_count :=
      if s.unread_count > 0 then s.unread_count - 1 else s.unread_count,
    conversations :=
      appendConv s.conversations e.1.id (formatRecord e.1 e.2),
    known_users := addKnown s.known_users e.1.id }

/-- drain_incoming_queue_to_conversations: pop the hand-off queue until
empty, applying the drain body to each entry in FIFO order; returns the new
state and the list of drained entries (the source returns that list, whose
length is the drained count). -/
def drain_incoming_queue_to_conversations (s : BotState) :
    BotState × List (Author × String) :=
  (s.incoming_queue.foldl drainStep { s with incoming_queue := [] },
   s.incoming_queue)

/-- The merge loop of reload_all_histories: for each fetched (uid, texts)
result in order, if texts is non-empty replace the log of uid with texts and
count one update; an empty result contributes nothing. Returns the updated
conversations dict and the updated count. -/
def mergeResults :
    (Nat → List String) → List (Nat × List String) → (Nat → List String) × Nat
  | conv, [] => (conv, 0)
  | conv, r :: rs =>
      if r.2.isEmpty then mergeResults conv rs
      else
        ((mergeResults (setConv conv r.1 r.2) rs).1,
         (mergeResults (setConv conv r.1 r.2) rs).2 + 1)

/-- reload_all_histories after fan-in: the results parameter is the list of
(uid, texts) pairs collected from the per-target fetch tasks that completed
(all of them when the global timeout did not elapse, only the finished ones
when it did). The merge step replaces logs from the results, then the
post-merge drain loop empties the hand-off queue; the summary is the pair of
the updated count and the drained count. -/
def reload_all_histories (s : BotState) (results : List (Nat × List String)) :
    BotState × Nat × Nat :=
  (( drain_incoming_queue_to_conversations
      { s with conversations := (mergeResults s.conversations results).1 }).1,
   (mergeResults s.conversations results).2,
   (drain_incoming_queue_to_conversations
      { s with conversations := (mergeResults s.conversations results).1 }).2.length)

/-- Outcome of one per-target fetch unit: the history fetch succeeded with a
list of formatted lines, or user.create_dm() returned no channel, or a
discord.HTTPException was raised, or some other exception was raised. -/
inductive FetchOutcome where
  | success (texts : List String)
  | channelNone
  | httpError
  | otherError

/-- fetch_for_uid: resolve the user and channel and fetch its history; any
HTTP error, missing channel, or other exception yields (uid, []) instead of
propagating. -/
def fetch_for_uid (uid : Nat) (o : FetchOutcome) : Nat × List String :=
  match o with
  | FetchOutcome.success texts => (uid, texts)
  | FetchOutcome.channelNone => (uid, [])
  | FetchOutcome.httpError => (uid, [])
  | FetchOutcome.otherError => (uid, [])

/-- Outcome of iterating channel.history: either the whole iteration
completed, or an exception was raised after some number of messages had
already been collected. -/
inductive HistoryOutcome where
  | complete
  | errorAfter (k : Nat)

/-- fetch_channel_history: accumulate messages oldest-first; on an exception
the messages collected so far are returned rather than the error raised. -/
def fetch_channel_history (msgs : List String) (o : HistoryOutcome) :
    List String :=
  match o with
  | HistoryOutcome.complete => msgs
  | HistoryOutcome.errorAfter k => msgs.take k

/-- The two files touched by atomic_save: the target document and the fresh
temporary file created next to it (none meaning the file does not exist). -/
structure FS where
  target : Option String
  temp : Option String

/-- Where atomic_save can fail: nowhere (success), in tempfile.mkstemp, in
json.dump (with some prefix already written to the temp file), in
flush/fsync, or in os.replace. -/
inductive SaveOutcome where
  | ok
  | failCreate
  | failWrite (written : String)
  | failSync
  | failRename

/-- tempfile.mkstemp: create the fresh temporary file, empty. -/
def step_mkstemp (fs : FS) : FS := { fs with temp := some ("") }

/-- json.dump plus flush plus fsync: the temp file now holds content. -/
def step_write (fs : FS) (content : String) : FS := { fs with temp := some content }

/-- os.replace(tmp, path): atomically rename the temp file over the target. -/
def step_replace (fs : FS) : FS := { target := fs.temp, temp := none }

/-- The cleanup in the except branch: remove the temp file if it exists. -/
def removeTemp (fs : FS) : FS := { fs with temp := none }

/-- atomic_save: create a temp file in the target directory, write the
serialized value, flush and fsync, then rename over the target; on any
failure remove the temp file and re-raise (the Bool result is true exactly
when the save succeeded). -/
def atomic_save (fs : FS) (data : String) (o : SaveOutcome) : FS × Bool :=
  match o with
  | SaveOutcome.ok => (step_replace (step_write (step_mkstemp fs) data), true)
  | SaveOutcome.failCreate => (fs, false)
  | SaveOutcome.failWrite w => (removeTemp (step_write (step_mkstemp fs) w), false)
  | SaveOutcome.failSync => (removeTemp (step_write (step_mkstemp fs) data), false)
  | SaveOutcome.failRename => (removeTemp (step_write (step_mkstemp fs) data), false)

/-- Condition of a persisted document as load_json observes it: the file is
absent, or opening it raises, or json.load raises, or it parses to a value. -/
inductive FileState (α : Type) where
  | absent
  | unreadable
  | malformed
  | valid (v : α)

/-- load_json: return the parsed value when the file exists and parses,
and the caller-supplied default in every other case; never raises. -/
def load_json {α : Type} (file : FileState α) (defaultVal : α) : α :=
  match file with
  | FileState.absent => defaultVal
  | FileState.unreadable => defaultVal
  | FileState.malformed => defaultVal
  | FileState.valid v => v

/-- A JSON array element as int(x) sees it: an integer, a string holding an
integer, or anything int() rejects. -/
inductive JVal where
  | jint (n : Int)
  | jintStr (n : Int)
  | jother

/-- int(x) for one element: some integer, or none when int() raises. -/
def toIntOpt : JVal → Option Int
  | JVal.jint n => some n
  | JVal.jintStr n => some n
  | JVal.jother => none

/-- Convert every element of a parsed array with int(x); none when any
single conversion raises. -/
def intsFromData : List JVal → Option (List Int)
  | [] => some []
  | x :: xs =>
      match toIntOpt x, intsFromData xs with
      | some n, some l => some (n :: l)
      | _, _ => none

/-- load_known_users: load the known-users document with default [], then
convert every element with int(x); if any conversion raises, return []. -/
def load_known_users (file : FileState (List JVal)) : List Int :=
  match intsFromData (load_json file []) with
  | some l => l
  | none => []

/-- The formatted lines the Inbound Relay appends for correspondent c when
processing msgs in order. -/
def relayLines (msgs : List Message) (c : Nat) : List String :=
  (msgs.filter (fun m => m.author.id == c)).map
    (fun m => formatRecord m.author m.content)

/-- The formatted lines the drain loop appends for correspondent c when
draining queue q in order. -/
def drainLines (q : List (Author × String)) (c : Nat) : List String :=
  (q.filter (fun e => e.1.id == c)).map (fun e => formatRecord e.1 e.2)

/-- The hand-off-queue entries produced by a list of accepted messages. -/
def queueEntries (msgs : List Message) : List (Author × String) :=
  msgs.map (fun m => (m.author, m.content))

/-- An atomic operation on the shared state: an inbound message event, a
CLI drain, or a reload applied with a given list of collected results. -/
inductive Event where
  | inbound (m : Message)
  | drain
  | reload (results : List (Nat × List String))

/-- Apply one event to the shared state. -/
def applyEvent (s : BotState) : Event → BotState
  | Event.inbound m => on_message s m
  | Event.drain => (drain_incoming_queue_to_conversations s).1
  | Event.reload rs => (reload_all_histories s rs).1

/-- Run a sequence of events from a state. -/
def run (s : BotState) (es : List Event) : BotState := es.foldl applyEvent s

/-- The empty conversations dict. -/
def emptyConv : Nat → List String := fun _ => []

/-- Correspondent 300 of the spec scenario, labelled X, not a bot. -/
def authorX : Author := { id := 300, label := "X", bot := false }

/-- The scenario inbound direct message from correspondent 300. -/
def msgHi : Message := { author := authorX, content := "hi", channel_isDM := true }

theorem drainStep_queue (s : BotState) (e : Author × String) :
    (drainStep s e).incoming_queue = s.incoming_queue := rfl

theorem foldl_drainStep_queue (q : List (Author × String)) :
    ∀ s : BotState, (q.foldl drainStep s).incoming_queue = s.incoming_queue := by
  induction q with
  | nil => intro s; rfl
  | cons e q ih =>
      intro s
      exact (ih (drainStep s e)).trans rfl

theorem drainStep_unread (s : BotState) (e : Author × String) :
    (drainStep s e).unread_count = s.unread_count - 1 := by
  by_cases h : s.unread_count > 0
  · simp [drainStep, h]
  · simp [drainStep, h]
    omega

theorem foldl_drainStep_unread (q : List (Author × String)) :
    ∀ s : BotState, (q.foldl drainStep s).unread_count = s.unread_count - q.length := by
  induction q with
  | nil => intro s; rfl
  | cons e q ih =>
      intro s
      rw [List.foldl_cons, ih (drainStep s e), drainStep_unread, List.length_cons]
      omega

theorem foldl_drainStep_conv (q : List (Author × String)) :
    ∀ (s : BotState) (c : Nat),
      (q.foldl drainStep s).conversations c = s.conversations c ++ drainLines q c := by
  induction q with
  | nil => intro s c; simp [drainLines]
  | cons e q ih =>
      intro s c
      rw [List.foldl_cons, ih (drainStep s e) c]
      by_cases hc : e.1.id = c
      · subst hc
        simp [drainStep, appendConv, drainLines, List.filter_cons, formatRecord]
      · simp [drainStep, appendConv, drainLines, List.filter_cons, hc, Ne.symm hc]

theorem setQueueEmpty_eq (s : BotState) (h : s.incoming_queue = []) :
    ({ s with incoming_queue := ([] : List (Author × String)) } : BotState) = s := by
  cases s with
  | mk q u cv k =>
      change q = [] at h
      subst h
      rfl

theorem on_message_accepted (s : BotState) (m : Message)
    (h : (m.channel_isDM && !m.author.bot) = true) :
    on_message s m =
      { incoming_queue := s.incoming_queue ++ [(m.author, m.content)],
        unread_count := s.unread_count + 1,
        conversations :=
          appendConv s.conversations m.author.id (formatRecord m.author m.content),
        known_users := addKnown s.known_users m.author.id } := by
  simp [on_message, h]

theorem foldl_on_message_unread (msgs : List Message) :
    ∀ s : BotState, (∀ m ∈ msgs, (m.channel_isDM && !m.author.bot) = true) →
      (msgs.foldl on_message s).unread_count = s.unread_count + msgs.length := by
  induction msgs with
  | nil => intro s _; rfl
  | cons m ms ih =>
      intro s h
      have hu : (on_message s m).unread_count = s.unread_count + 1 := by
        rw [on_message_accepted s m (h m (List.mem_cons_self m ms))]
      rw [List.foldl_cons, ih (on_message s m) (fun x hx => h x (List.mem_cons_of_mem m hx)),
        hu, List.length_cons]
      omega

theorem foldl_on_message_queue (msgs : List Message) :
    ∀ s : BotState, (∀ m ∈ msgs, (m.channel_isDM && !m.author.bot) = true) →
      (msgs.foldl on_message s).incoming_queue = s.incoming_queue ++ queueEntries msgs := by
  induction msgs with
  | nil => intro s _; simp [queueEntries]
  | cons m ms ih =>
      intro s h
      rw [List.foldl_cons, ih (on_message s m) (fun x hx => h x (List.mem_cons_of_mem m hx)),
        on_message_accepted s m (h m (List.mem_cons_self m ms))]
      simp [queueEntries]

theorem foldl_on_message_conv (msgs : List Message) :
    ∀ (s : BotState) (c : Nat), (∀ m ∈ msgs, (m.channel_isDM && !m.author.bot) = true) →
      (msgs.foldl on_message s).conversations c = s.conversations c ++ relayLines msgs c := by
  induction msgs with
  | nil => intro s c _; simp [relayLines]
  | cons m ms ih =>
      intro s c h
      rw [List.foldl_cons, ih (on_message s m) c (fun x hx => h x (List.mem_cons_of_mem m hx)),
        on_message_accepted s m (h m (List.mem_cons_self m ms))]
      by_cases hc : m.author.id = c
      · subst hc
        simp [appendConv, relayLines, List.filter_cons, formatRecord]
      · simp [appendConv, relayLines, List.filter_cons, hc, Ne.symm hc]

theorem drainLines_queueEntries (msgs : List Message) (c : Nat) :
    drainLines (queueEntries msgs) c = relayLines msgs c := by
  induction msgs with
  | nil => rfl
  | cons m ms ih =>
      by_cases hc : m.author.id = c
      · simp [drainLines, queueEntries, relayLines, List.filter_cons, hc] at *
        exact ih
      · simp [drainLines, queueEntries, relayLines, List.filter_cons, hc] at *
        exact ih

theorem merge_keeps_empty (rs : List (Nat × List String)) :
    ∀ (conv : Nat → List String) (uid : Nat),
      (∀ p ∈ rs, p.1 = uid → p.2 = []) → (mergeResults conv rs).1 uid = conv uid := by
  induction rs with
  | nil => intro conv uid _; rfl
  | cons r rs ih =>
      intro conv uid h
      by_cases he : r.2.isEmpty
      · rw [show mergeResults conv (r :: rs) = mergeResults conv rs by
          simp [mergeResults, he]]
        exact ih conv uid (fun p hp => h p (List.mem_cons_of_mem r hp))
      · have hne : r.1 ≠ uid := by
          intro heq
          have h2 := h r (List.mem_cons_self r rs) heq
          rw [h2] at he
          exact he rfl
        rw [show (mergeResults conv (r :: rs)).1
              = (mergeResults (setConv conv r.1 r.2) rs).1 by
          simp [mergeResults, he]]
        rw [ih (setConv conv r.1 r.2) uid (fun p hp => h p (List.mem_cons_of_mem r hp))]
        simp [setConv, Ne.symm hne]

theorem merge_replaces_mem (rs : List (Nat × List String)) :
    ∀ (conv : Nat → List String) (p : Nat × List String),
      (rs.map Prod.fst).Nodup → p ∈ rs → p.2 ≠ [] →
      (mergeResults conv rs).1 p.1 = p.2 := by
  induction rs with
  | nil => intro conv p _ hp; exact absurd hp (List.not_mem_nil p)
  | cons r rs ih =>
      intro conv p hnd hp hne
      rw [List.map_cons] at hnd
      have hnd1 : r.1 ∉ rs.map Prod.fst := (List.nodup_cons.mp hnd).1
      have hnd2 : (rs.map Prod.fst).Nodup := (List.nodup_cons.mp hnd).2
      rcases List.mem_cons.mp hp with hpr | hptl
      · subst hpr
        have hemp : ¬ p.2.isEmpty := by
          cases h2 : p.2 with
          | nil => exact absurd h2 hne
          | cons a l => simp [h2]
        rw [show (mergeResults conv (p :: rs)).1
              = (mergeResults (setConv conv p.1 p.2) rs).1 by
          simp [mergeResults, hemp]]
        rw [merge_keeps_empty rs (setConv conv p.1 p.2) p.1
          (fun q hq hq1 => absurd (hq1 ▸ List.mem_map_of_mem Prod.fst hq) hnd1)]
        simp [setConv]
      · by_cases he : r.2.isEmpty
        · rw [show mergeResults conv (r :: rs) = mergeResults conv rs by
            simp [mergeResults, he]]
          exact ih conv p hnd2 hptl hne
        · rw [show (mergeResults conv (r :: rs)).1
                = (mergeResults (setConv conv r.1 r.2) rs).1 by
            simp [mergeResults, he]]
          exact ih (setConv conv r.1 r.2) p hnd2 hptl hne

theorem merge_count (rs : List (Nat × List String)) :
    ∀ conv : Nat → List String,
      (mergeResults conv rs).2 = (rs.filter (fun p => !p.2.isEmpty)).length := by
  induction rs with
  | nil => intro conv; rfl
  | cons r rs ih =>
      intro conv
      by_cases he : r.2.isEmpty
      · simp [mergeResults, he, List.filter_cons, ih]
      · simp [mergeResults, he, List.filter_cons, ih]

theorem merge_append_empty (rs : List (Nat × List String)) :
    ∀ (conv : Nat → List String) (uid : Nat),
      mergeResults conv (rs ++ [(uid, [])]) = mergeResults conv rs := by
  induction rs with
  | nil =>
      intro conv uid
      simp [mergeResults]
  | cons r rs ih =>
      intro conv uid
      by_cases he : r.2.isEmpty
      · simp [mergeResults, he, ih]
      · simp [mergeResults, he, ih]

theorem drain_inv (s : BotState)
    (h : s.unread_count = s.incoming_queue.length) :
    (drain_incoming_queue_to_conversations s).1.unread_count
      = (drain_incoming_queue_to_conversations s).1.incoming_queue.length := by
  show (s.incoming_queue.foldl drainStep { s with incoming_queue := [] }).unread_count
    = (s.incoming_queue.foldl drainStep { s with incoming_queue := [] }).incoming_queue.length
  rw [foldl_drainStep_unread, foldl_drainStep_queue]
  show s.unread_count - s.incoming_queue.length = List.length []
  rw [h]
  simp

theorem applyEvent_inv (s : BotState) (e : Event)
    (h : s.unread_count = s.incoming_queue.length) :
    (applyEvent s e).unread_count = (applyEvent s e).incoming_queue.length := by
  cases e with
  | inbound m =>
      show (on_message s m).unread_count = (on_message s m).incoming_queue.length
      by_cases hc : (m.channel_isDM && !m.author.bot) = true
      · rw [on_message_accepted s m hc]
        simp [h]
      · simp [on_message, hc, h]
  | drain => exact drain_inv s h
  | reload rs =>
      exact drain_inv { s with conversations := (mergeResults s.conversations rs).1 } h

theorem run_inv (es : List Event) :
    ∀ s : BotState, s.unread_count = s.incoming_queue.length →
      (run s es).unread_count = (run s es).incoming_queue.length := by
  induction es with
  | nil => intro s h; exact h
  | cons e es ih => intro s h; exact ih (applyEvent s e) (applyEvent_inv s e h)

/-- C3: atomic_save writes the full serialized value to a freshly created
temporary file in the directory of the target, flushes and forces it to
stable storage, then atomically renames it over the target; on success the
target holds the new value and the temporary file is gone, and if any step
fails the temporary file is removed and the target keeps its original
contents. -/
theorem atomic_save_crash_safe (fs : FS) (data : String) (h : fs.temp = none) :
    ((atomic_save fs data SaveOutcome.ok).1.target = some data ∧
     (atomic_save fs data SaveOutcome.ok).1.temp = none ∧
     (atomic_save fs data SaveOutcome.ok).2 = true) ∧
    (∀ o : SaveOutcome, (atomic_save fs data o).2 = false →
      (atomic_save fs data o).1.target = fs.target ∧
      (atomic_save fs data o).1.temp = none) := by
  refine ⟨⟨rfl, rfl, rfl⟩, ?_⟩
  intro o ho
  cases o with
  | ok => exact absurd ho (by simp [atomic_save])
  | failCreate => exact ⟨rfl, h⟩
  | failWrite w => exact ⟨rfl, rfl⟩
  | failSync => exact ⟨rfl, rfl⟩
  | failRename => exact ⟨rfl, rfl⟩

/-- A concrete filesystem for the atomic_save witness: the target document
holds orig and no temporary file exists. -/
def fsOrig : FS := { target := some ("orig"), temp := none }

/-- Witness for atomic_save_crash_safe at a concrete filesystem: a failure
during json.dump leaves the original target contents and no temp file, and a
successful save installs the new contents. -/
theorem atomic_save_crash_safe_witness :
    fsOrig.temp = none ∧
    (atomic_save fsOrig ("new") (SaveOutcome.failWrite ("ne"))).1.target = some ("orig") ∧
    (atomic_save fsOrig ("new") (SaveOutcome.failWrite ("ne"))).1.temp = none ∧
    (atomic_save fsOrig ("new") SaveOutcome.ok).1.target = some ("new") :=
  ⟨rfl,
   ((atomic_save_crash_safe fsOrig ("new") rfl).2 (SaveOutcome.failWrite ("ne")) rfl).1,
   ((atomic_save_crash_safe fsOrig ("new") rfl).2 (SaveOutcome.failWrite ("ne")) rfl).2,
   (atomic_save_crash_safe fsOrig ("new") rfl).1.1⟩

/-- C6: load_json returns the caller-supplied default when the target file
is absent, unreadable, or fails to parse, and the parsed value otherwise,
and never raises; load_known_users likewise degrades to the empty list,
also when an element of a parsed document cannot be converted with int(). -/
theorem load_json_never_raises (α : Type) (d v : α) (l : List JVal) :
    load_json (FileState.absent : FileState α) d = d ∧
    load_json (FileState.unreadable : FileState α) d = d ∧
    load_json (FileState.malformed : FileState α) d = d ∧
    load_json (FileState.valid v) d = v ∧
    load_known_users (FileState.absent : FileState (List JVal)) = [] ∧
    load_known_users (FileState.unreadable : FileState (List JVal)) = [] ∧
    load_known_users (FileState.malformed : FileState (List JVal)) = [] ∧
    load_known_users (FileState.valid (JVal.jother :: l)) = [] :=
  ⟨rfl, rfl, rfl, rfl, rfl, rfl, rfl, rfl⟩

/-- C7: the drain is idempotent: draining a second time with no new
arrivals leaves the state exactly as after the first drain and drains zero
entries. -/
theorem drain_idempotent (s : BotState) :
    (drain_incoming_queue_to_conversations
        (drain_incoming_queue_to_conversations s).1).1
      = (drain_incoming_queue_to_conversations s).1 ∧
    (drain_incoming_queue_to_conversations
        (drain_incoming_queue_to_conversations s).1).2.length = 0 := by
  have hq : (drain_incoming_queue_to_conversations s).1.incoming_queue = [] := by
    show (s.incoming_queue.foldl drainStep
      { s with incoming_queue := [] }).incoming_queue = []
    rw [foldl_drainStep_queue]
  constructor
  · show ((drain_incoming_queue_to_conversations s).1.incoming_queue.foldl drainStep
        { (drain_incoming_queue_to_conversations s).1 with incoming_queue := [] })
      = (drain_incoming_queue_to_conversations s).1
    rw [hq]
    exact setQueueEmpty_eq _ hq
  · show (drain_incoming_queue_to_conversations s).1.incoming_queue.length = 0
    rw [hq]
    rfl

/-- C4: when the global timeout elapses before any per-target fetch
completes, the collected results are empty; reload_all_histories applied to
empty results reports zero updates and zero drained entries and, from a
quiescent state (empty hand-off queue), returns the state unchanged, so no
conversation log is replaced or garbled. -/
theorem reload_timeout_no_completed (s : BotState) (h : s.incoming_queue = []) :
    reload_all_histories s [] = (s, 0, 0) := by
  cases s with
  | mk q u cv k =>
      change q = [] at h
      subst h
      rfl

/-- A concrete quiescent state for the reload timeout witness. -/
def sQuiet : BotState :=
  startState (fun k => if k = 7 then ["A: x"] else []) [5]

/-- Witness for reload_timeout_no_completed at a concrete quiescent state
with one existing conversation log. -/
theorem reload_timeout_no_completed_witness :
    sQuiet.incoming_queue = [] ∧ reload_all_histories sQuiet [] = (sQuiet, 0, 0) :=
  ⟨rfl, reload_timeout_no_completed sQuiet rfl⟩

/-- C9: an inbound message event whose author is a bot account or whose
channel is not a direct channel leaves the whole shared state, the hand-off
queue, the unread counter, the conversation logs and the known-users list,
unchanged, and raises no error. -/
theorem ignored_message_no_state_change (s : BotState) (m : Message)
    (h : m.author.bot = true ∨ m.channel_isDM = false) :
    on_message s m = s := by
  rcases h with h | h <;> simp [on_message, h]

/-- A bot-authored direct message, which the relay must ignore. -/
def msgBot : Message :=
  { author := { id := 7, label := "B", bot := true }, content := "spam",
    channel_isDM := true }

/-- Witness for ignored_message_no_state_change at a concrete bot-authored
message and a concrete state. -/
theorem ignored_message_no_state_change_witness :
    (msgBot.author.bot = true ∨ msgBot.channel_isDM = false) ∧
    on_message (startState emptyConv []) msgBot = startState emptyConv [] :=
  ⟨Or.inl rfl,
   ignored_message_no_state_change (startState emptyConv []) msgBot (Or.inl rfl)⟩

/-- C10: the per-target fetch unit is total: a successful fetch returns the
pair of the uid and the fetched lines, and a missing channel, an HTTP error
or any other exception returns the pair of the uid and the empty list;
fetch_channel_history returns the messages collected before an error rather
than raising; and an empty result, whether from a failed fetch or from a
genuinely empty remote history, contributes nothing to the merge: it leaves
every log and the updated count exactly as they were. -/
theorem fetch_unit_total (uid : Nat) (ts : List String)
    (conv : Nat → List String) (rs : List (Nat × List String))
    (msgs : List String) (k : Nat) :
    fetch_for_uid uid (FetchOutcome.success ts) = (uid, ts) ∧
    fetch_for_uid uid FetchOutcome.channelNone = (uid, []) ∧
    fetch_for_uid uid FetchOutcome.httpError = (uid, []) ∧
    fetch_for_uid uid FetchOutcome.otherError = (uid, []) ∧
    fetch_channel_history msgs (HistoryOutcome.errorAfter k) = msgs.take k ∧
    mergeResults conv (rs ++ [(uid, [])]) = mergeResults conv rs :=
  ⟨rfl, rfl, rfl, rfl, rfl, merge_append_empty rs conv uid⟩

/-- C2: in the merge step of reload_all_histories, every target whose
fetched history is non-empty has its conversation log replaced wholesale by
the fetched sequence; every target all of whose results are empty (in
particular every failed fetch, which contributes the pair of the uid and the
empty list) keeps its existing log unchanged, independently of the other
targets; the updated count of the merge is the number of non-empty results,
and the summary returned by reload_all_histories reports exactly that
count. -/
theorem reload_merge_replace_spec (conv : Nat → List String)
    (rs : List (Nat × List String)) (hnd : (rs.map Prod.fst).Nodup) :
    (∀ p ∈ rs, p.2 ≠ [] → (mergeResults conv rs).1 p.1 = p.2) ∧
    (∀ uid : Nat, (∀ p ∈ rs, p.1 = uid → p.2 = []) →
      (mergeResults conv rs).1 uid = conv uid) ∧
    (mergeResults conv rs).2 = (rs.filter (fun p => !p.2.isEmpty)).length ∧
    (∀ s : BotState,
      (reload_all_histories s rs).2.1 = (mergeResults s.conversations rs).2) := by
  refine ⟨?_, ?_, merge_count rs conv, fun s => rfl⟩
  · intro p hp hne
    exact merge_replaces_mem rs conv p hnd hp hne
  · intro uid h
    exact merge_keeps_empty rs conv uid h

/-- A conversations dict holding one old line everywhere, for the merge
witness. -/
def convOld : Nat → List String := fun _ => ["old"]

/-- Witness for reload_merge_replace_spec on a concrete result list: target
1 fetched two lines and is replaced, target 2 failed (empty result) and
keeps its old log, and the updated count is 1. -/
theorem reload_merge_replace_spec_witness :
    (([((1 : Nat), ["a", "b"]), ((2 : Nat), ([] : List String))].map Prod.fst).Nodup) ∧
    (mergeResults convOld [(1, ["a", "b"]), (2, [])]).1 1 = ["a", "b"] ∧
    (mergeResults convOld [(1, ["a", "b"]), (2, [])]).1 2 = ["old"] ∧
    (mergeResults convOld [(1, ["a", "b"]), (2, [])]).2 = 1 := by
  have h := reload_merge_replace_spec convOld [(1, ["a", "b"]), (2, [])] (by decide)
  refine ⟨by decide, ?_, ?_, ?_⟩
  · exact h.1 (1, ["a", "b"]) (by simp) (by simp)
  · exact (h.2.1 2 (by decide)).trans rfl
  · exact h.2.2.1.trans rfl

/-- C5: the unread counter starts at zero, every accepted inbound message
increments it by exactly one, every drained entry decrements it by exactly
one with a floor at zero, and after any sequence of inbound, drain and
reload events from a start state the counter equals the length of the
hand-off queue, the number of entries enqueued but not yet drained; being a
natural number it is never negative. -/
theorem unread_counter_invariant (conv : Nat → List String) (known : List Nat)
    (es : List Event) :
    (startState conv known).unread_count = 0 ∧
    (∀ (s : BotState) (m : Message), (m.channel_isDM && !m.author.bot) = true →
      (on_message s m).unread_count = s.unread_count + 1) ∧
    (∀ (s : BotState) (e : Author × String),
      (drainStep s e).unread_count = s.unread_count - 1) ∧
    (run (startState conv known) es).unread_count
      = (run (startState conv known) es).incoming_queue.length := by
  refine ⟨rfl, ?_, drainStep_unread, run_inv es (startState conv known) rfl⟩
  intro s m h
  rw [on_message_accepted s m h]

/-- Witness for unread_counter_invariant at a concrete accepted message and
a concrete event sequence of one inbound message followed by a drain. -/
theorem unread_counter_invariant_witness :
    ((msgHi.channel_isDM && !msgHi.author.bot) = true) ∧
    (on_message (startState emptyConv []) msgHi).unread_count
      = (startState emptyConv []).unread_count + 1 ∧
    (run (startState emptyConv []) [Event.inbound msgHi, Event.drain]).unread_count
      = (run (startState emptyConv [])
          [Event.inbound msgHi, Event.drain]).incoming_queue.length := by
  have h := unread_counter_invariant emptyConv [] [Event.inbound msgHi, Event.drain]
  exact ⟨rfl, h.2.1 (startState emptyConv []) msgHi rfl, h.2.2.2⟩

/-- C1: evaluating the code on the spec scenario: an inbound direct message
from correspondent 300 arrives, then a reload that collected no fetch
results completes and drains the queue. The unread counter does return to
its pre-arrival value, but the log of correspondent 300 then holds two
copies of the formatted record, not one: the post-merge drain appends the
record again even though the inbound relay already appended it at arrival
time. -/
theorem drain_reappends_inbound_record :
    (reload_all_histories (on_message (startState emptyConv []) msgHi)
        []).1.conversations 300 = ["X: hi", "X: hi"] ∧
    (reload_all_histories (on_message (startState emptyConv []) msgHi)
        []).1.unread_count = 0 ∧
    ["X: hi", "X: hi"] ≠ (["X: hi"] : List String) := by
  refine ⟨rfl, rfl, by decide⟩

/-- C8 as stated fails on the code: with one accepted inbound event, after
the Queue Drain Reconciler has run to completion the unread counter is 0,
not the number of accepted events, which is 1. -/
theorem unread_after_drain_counterexample :
    ¬ ((drain_incoming_queue_to_conversations
          ([msgHi].foldl on_message (startState emptyConv []))).1.unread_count
        = [msgHi].length) := by
  decide

/-- C8 amended: for every sequence of accepted inbound events, the unread
counter equals the number of accepted events before reconciliation and
equals zero after the Queue Drain Reconciler has run to completion; each
conversation log then extends its previous contents with the formatted
events of its correspondent in receipt order appended twice, once by the
inbound relay and once more by the drain, so in particular it contains its
events in receipt order. -/
theorem inbound_then_drain_reconciles (conv : Nat → List String)
    (known : List Nat) (msgs : List Message)
    (hacc : ∀ m ∈ msgs, (m.channel_isDM && !m.author.bot) = true) :
    (msgs.foldl on_message (startState conv known)).unread_count = msgs.length ∧
    (drain_incoming_queue_to_conversations
        (msgs.foldl on_message (startState conv known))).1.unread_count = 0 ∧
    (∀ c : Nat,
      (drain_incoming_queue_to_conversations
          (msgs.foldl on_message (startState conv known))).1.conversations c
        = conv c ++ relayLines msgs c ++ relayLines msgs c) ∧
    (∀ c : Nat, List.Sublist (relayLines msgs c)
      ((drain_incoming_queue_to_conversations
          (msgs.foldl on_message (startState conv known))).1.conversations c)) := by
  have h1 : (msgs.foldl on_message (startState conv known)).unread_count
      = msgs.length := by
    rw [foldl_on_message_unread msgs (startState conv known) hacc]
    simp [startState]
  have hq : (msgs.foldl on_message (startState conv known)).incoming_queue
      = queueEntries msgs := by
    rw [foldl_on_message_queue msgs (startState conv known) hacc]
    rfl
  have h2 : (drain_incoming_queue_to_conversations
      (msgs.foldl on_message (startState conv known))).1.unread_count = 0 := by
    show ((msgs.foldl on_message (startState conv known)).incoming_queue.foldl
      drainStep _).unread_count = 0
    rw [foldl_drainStep_unread]
    show (msgs.foldl on_message (startState conv known)).unread_count
      - (msgs.foldl on_message (startState conv known)).incoming_queue.length = 0
    rw [h1, hq]
    simp [queueEntries]
  have h3 : ∀ c : Nat,
      (drain_incoming_queue_to_conversations
          (msgs.foldl on_message (startState conv known))).1.conversations c
        = conv c ++ relayLines msgs c ++ relayLines msgs c := by
    intro c
    show ((msgs.foldl on_message (startState conv known)).incoming_queue.foldl
      drainStep _).conversations c = _
    rw [foldl_drainStep_conv]
    show (msgs.foldl on_message (startState conv known)).conversations c
        ++ drainLines (msgs.foldl on_message (startState conv known)).incoming_queue c
      = _
    rw [foldl_on_message_conv msgs (startState conv known) c hacc, hq,
      drainLines_queueEntries]
    rfl
  refine ⟨h1, h2, h3, ?_⟩
  intro c
  rw [h3 c]
  exact List.sublist_append_right _ _

/-- Witness for inbound_then_drain_reconciles at the concrete one-message
sequence of the spec scenario: one accepted inbound event, counter 1 before
the drain and 0 after, and the log of correspondent 300 holding the record
twice. -/
theorem inbound_then_drain_reconciles_witness :
    (∀ m ∈ [msgHi], (m.channel_isDM && !m.author.bot) = true) ∧
    ([msgHi].foldl on_message (startState emptyConv [])).unread_count = 1 ∧
    (drain_incoming_queue_to_conversations
        ([msgHi].foldl on_message (startState emptyConv []))).1.unread_count = 0 ∧
    (drain_incoming_queue_to_conversations
        ([msgHi].foldl on_message (startState emptyConv []))).1.conversations 300
      = emptyConv 300 ++ relayLines [msgHi] 300 ++ relayLines [msgHi] 300 := by
  have h := inbound_then_drain_reconciles emptyConv [] [msgHi] (by decide)
  exact ⟨by decide, h.1, h.2.1, h.2.2.1 300⟩

end DMBot
